import Mathlib

/-!
Verification of the trackpoint matching and GPS conversion code of
`geotag.py` / `gpsfuncs.py`.

The embedding follows the Python source line by line:

* `gpsfuncs.py`: `Trackpoint` (a latitude, longitude, elevation, time record),
  `decToDMS`, `dmsToDec` and `formatAsRational`.  Python floats are modelled as
  exact rationals for these purely arithmetic/string functions; `int(x)`
  truncation toward zero is `pytrunc` and the `'%f'` fixed six decimal
  rendering is `fixed6`.

* `geotag.py`: `interpolate_n` and `findNearestTrackpoint`.  Timestamps and
  the threshold are modelled as rationals (the scan over the list only
  subtracts and compares them); coordinates and all geometric computations are
  modelled over the reals, with `Real.cos`, `Real.sin`, `Real.sqrt` and
  `atan2 y x = Complex.arg (x + y*I)` standing for the corresponding `math`
  functions.  The Python function never returns `None`: when both bracket
  slots remain `None` it dereferences `None` (an `AttributeError`), which the
  model makes explicit as the `MatchOutcome.attributeError` outcome.
-/

namespace Geotag

/-- The `Trackpoint` holder class of `gpsfuncs.py`: latitude, longitude and
elevation are reals (Python floats); the timestamp is modelled as a rational
number of seconds. -/
structure Trackpoint where
  lat : ℝ
  lon : ℝ
  ele : ℝ
  time : ℚ

/-! ## gpsfuncs.py -/

/-- Python `int(x)` conversion: truncation toward zero.  On a rational in
lowest terms this is the truncating division of the numerator by the
denominator. -/
def pytrunc (q : ℚ) : ℤ :=
  q.num.tdiv q.den

/-- Line by line embedding of `decToDMS` from `gpsfuncs.py`:
`work = degrees; deg = int(work); work = (work - deg) * 60; min = int(work);
sec = (work - min) * 60; return (deg, min, sec)`. -/
def decToDMS (degrees : ℚ) : ℤ × ℤ × ℚ :=
  let work := degrees
  let deg := pytrunc work
  let work2 := (work - deg) * 60
  let mn := pytrunc work2
  let sec := (work2 - mn) * 60
  (deg, mn, sec)

/-- Embedding of `dmsToDec` from `gpsfuncs.py`:
`return deg + (float((min * 60) + sec) / 3600)`. -/
def dmsToDec (deg mn : ℤ) (sec : ℚ) : ℚ :=
  deg + ((mn * 60 + sec) / 3600)

/-- Decimal digit to character. -/
def digitChar : ℕ → Char
  | 0 => '0'
  | 1 => '1'
  | 2 => '2'
  | 3 => '3'
  | 4 => '4'
  | 5 => '5'
  | 6 => '6'
  | 7 => '7'
  | 8 => '8'
  | 9 => '9'
  | _ => '?'

/-- Decimal rendering of a natural number, with explicit fuel (the fuel
`n + 1` always suffices). -/
def natDigitsAux : ℕ → ℕ → List Char
  | 0, _ => ['?']
  | fuel + 1, n =>
    if n < 10 then [digitChar n]
    else natDigitsAux fuel (n / 10) ++ [digitChar (n % 10)]

/-- Decimal rendering of a natural number as a list of characters. -/
def natDigits (n : ℕ) : List Char :=
  natDigitsAux (n + 1) n

/-- Pad a digit string on the left with zeros to six characters. -/
def pad6 (cs : List Char) : List Char :=
  List.replicate (6 - cs.length) '0' ++ cs

/-- Fixed six-decimal rendering of a nonnegative value given as
`n = round (q * 10^6)`: integer part, a dot, and exactly six fractional
digits. -/
def fixed6Nat (n : ℕ) : List Char :=
  natDigits (n / 1000000) ++ '.' :: pad6 (natDigits (n % 1000000))

/-- Python `'%f' % q`: fixed rendering with six decimals, rounding the value
to the nearest multiple of `10 ^ (-6)` (ties do not occur in the claims under
study, so the rounding mode of the model is immaterial there). -/
def fixed6 (q : ℚ) : List Char :=
  if 0 ≤ q then fixed6Nat (round (q * 1000000)).toNat
  else '-' :: fixed6Nat (round (-q * 1000000)).toNat

/-- Python `s.rstrip('0')`. -/
def rstripZeros (cs : List Char) : List Char :=
  (cs.reverse.dropWhile (fun c => c = '0')).reverse

/-- Python `s.split('.')`. -/
def splitDot : List Char → List (List Char)
  | [] => [[]]
  | c :: rest =>
    match splitDot rest with
    | [] => [[]]
    | h :: t => if c = '.' then [] :: h :: t else (c :: h) :: t

/-- Line by line embedding of `formatAsRational` from `gpsfuncs.py`.  The
tuple unpacking `(int_portion, frac_portion) = stringrep.rstrip('0').split('.')`
raises `ValueError` when the split does not yield exactly two parts; the model
returns `none` in that case. -/
def formatAsRational (number : ℚ) : Option String :=
  if number = 0 then some "0/1"
  else
    match splitDot (rstripZeros (fixed6 number)) with
    | [ip, fp] =>
      some (String.mk ((ip.dropWhile (fun c => c = '0')) ++ fp ++
        '/' :: natDigits (10 ^ fp.length)))
    | _ => none

/-! ## geotag.py: interpolate_n -/

/-- The weight computation inside `interpolate_n`:
`weights = [delta == 0 for delta in deltas]` (booleans summing as 0/1
integers); `if sum(weights) == 0: weights = [1/delta for delta in deltas]`. -/
noncomputable def interpolateWeights (deltas : List ℝ) : List ℝ :=
  let w := deltas.map (fun d => if d = 0 then (1 : ℝ) else 0)
  if w.sum = 0 then deltas.map (fun d => 1 / d) else w

/-- Line by line embedding of `interpolate_n` from `geotag.py`:
`return sum([value*weight for (value,weight) in zip(values,weights)])/sum(weights)`. -/
noncomputable def interpolate_n (deltas values : List ℝ) : ℝ :=
  ((values.zip (interpolateWeights deltas)).map (fun vw => vw.1 * vw.2)).sum /
    (interpolateWeights deltas).sum

/-! ## geotag.py: findNearestTrackpoint, candidate selection phase

The Python code keeps `closestPoints = [None, None]` (closest before/after)
and `closestTimes = [threshold, threshold]`, then iterates over the list:
`delta = trackpoint.time - time; after = (delta >= 0);
if abs(delta) < closestTimes[after]: update slot`. -/

/-- The mutable scan state: `closestPoints[0], closestTimes[0],
closestPoints[1], closestTimes[1]`. -/
structure ScanState where
  cp0 : Option Trackpoint
  ct0 : ℚ
  cp1 : Option Trackpoint
  ct1 : ℚ

/-- One iteration of the scan loop of `findNearestTrackpoint`. -/
def scanStep (time : ℚ) (s : ScanState) (tp : Trackpoint) : ScanState :=
  if 0 ≤ tp.time - time then
    if |tp.time - time| < s.ct1 then { s with cp1 := some tp, ct1 := |tp.time - time| }
    else s
  else
    if |tp.time - time| < s.ct0 then { s with cp0 := some tp, ct0 := |tp.time - time| }
    else s

/-- The scan loop over the whole trackpoint list. -/
def scanList (l : List Trackpoint) (time threshold : ℚ) : ScanState :=
  l.foldl (scanStep time) ⟨none, threshold, none, threshold⟩

/-- The fill loop
`for i in [0,1]: if closestPoints[i] is None: closestPoints[i] = closestPoints[1-i]`;
when both slots are still `None`, any later attribute access on them raises,
which the model signals with `none`. -/
def fillPoints : Option Trackpoint → Option Trackpoint → Option (Trackpoint × Trackpoint)
  | none, none => none
  | some a, none => some (a, a)
  | none, some b => some (b, b)
  | some a, some b => some (a, b)

/-- The reduction of the non-interpolated case to the interpolated one:
`for i in [0,1]: if abs(closestPoints[i].time - time) <=
abs(closestPoints[1-i].time - time): closestPoints[1-i] = closestPoints[i]`,
executed sequentially for `i = 0` then `i = 1`. -/
def collapse (time : ℚ) (p : Trackpoint × Trackpoint) : Trackpoint × Trackpoint :=
  let p' := if |p.1.time - time| ≤ |p.2.time - time| then (p.1, p.1) else p
  if |p'.2.time - time| ≤ |p'.1.time - time| then (p'.2, p'.2) else p'

/-- The whole candidate selection phase of `findNearestTrackpoint` (scan,
fill, and the non-interpolated collapse); `none` means both slots stayed
`None` and the subsequent attribute access raises. -/
def selectPoints (l : List Trackpoint) (time : ℚ) (interpolate : Bool)
    (threshold : ℚ) : Option (Trackpoint × Trackpoint) :=
  let s := scanList l time threshold
  match fillPoints s.cp0 s.cp1 with
  | none => none
  | some pq => some (if interpolate then pq else collapse time pq)

/-! ## geotag.py: findNearestTrackpoint, geometric phase -/

/-- Two-argument arctangent, `math.atan2 y x`, with range `(-pi, pi]` on
nonzero input, modelled as the complex argument of `x + y*I`. -/
noncomputable def atan2 (y x : ℝ) : ℝ :=
  Complex.arg (x + y * Complex.I)

/-- The normal vector of a trackpoint, exactly as computed on lines 111-113
of `geotag.py`:
`(cos(point.lat/90.*pi)*cos(point.lon/90.*pi),
  cos(point.lat/90.*pi)*sin(point.lon/90.*pi), sin(point.lat/90.*pi))`.
Note the division by 90 rather than 180 in the source. -/
noncomputable def nvec (p : Trackpoint) : ℝ × ℝ × ℝ :=
  (Real.cos (p.lat / 90 * Real.pi) * Real.cos (p.lon / 90 * Real.pi),
   Real.cos (p.lat / 90 * Real.pi) * Real.sin (p.lon / 90 * Real.pi),
   Real.sin (p.lat / 90 * Real.pi))

/-- The time deltas `[abs(time - point.time) for point in closestPoints]`. -/
noncomputable def timeDeltas (p0 p1 : Trackpoint) (time : ℚ) : List ℝ :=
  [|(time : ℝ) - (p0.time : ℝ)|, |(time : ℝ) - (p1.time : ℝ)|]

/-- Componentwise interpolation of the two normal vectors:
`normal = [interpolate_n(deltas, values) for values in zip(*normals)]`. -/
noncomputable def interpNormal (p0 p1 : Trackpoint) (time : ℚ) : ℝ × ℝ × ℝ :=
  (interpolate_n (timeDeltas p0 p1 time) [(nvec p0).1, (nvec p1).1],
   interpolate_n (timeDeltas p0 p1 time) [(nvec p0).2.1, (nvec p1).2.1],
   interpolate_n (timeDeltas p0 p1 time) [(nvec p0).2.2, (nvec p1).2.2])

/-- The quantity `sum(v*v for v in normal)` used on line 118. -/
def normSq (v : ℝ × ℝ × ℝ) : ℝ :=
  v.1 * v.1 + v.2.1 * v.2.1 + v.2.2 * v.2.2

/-- Line 118: `normal = [value/sum(v*v for v in normal) for value in normal]`
(the source divides by the squared magnitude, not the magnitude). -/
noncomputable def normalizeV (v : ℝ × ℝ × ℝ) : ℝ × ℝ × ℝ :=
  (v.1 / normSq v, v.2.1 / normSq v, v.2.2 / normSq v)

/-- Lines 110-128 of `geotag.py`: the synthetic result trackpoint built from
the two selected points; its `time` field is set to the query time on
line 127. -/
noncomputable def geomResult (p0 p1 : Trackpoint) (time : ℚ) : Trackpoint :=
  let n := normalizeV (interpNormal p0 p1 time)
  { lat := atan2 n.2.2 (Real.sqrt (n.1 ^ 2 + n.2.1 ^ 2)) / Real.pi * 90,
    lon := atan2 n.2.1 n.1 / Real.pi * 90,
    ele := interpolate_n (timeDeltas p0 p1 time) [p0.ele, p1.ele],
    time := time }

/-- Outcome of a call to `findNearestTrackpoint`: either a returned
trackpoint, or the `AttributeError` raised when both bracket slots stayed
`None` and line 107 or 111 dereferences `None` (the function never returns
`None`, despite its docstring). -/
inductive MatchOutcome where
  | ok (tp : Trackpoint)
  | attributeError

/-- Full embedding of `findNearestTrackpoint(list, time, interpolate,
threshold)` from `geotag.py`. -/
noncomputable def findNearestTrackpoint (l : List Trackpoint) (time : ℚ)
    (interpolate : Bool) (threshold : ℚ) : MatchOutcome :=
  match selectPoints l time interpolate threshold with
  | none => .attributeError
  | some (p0, p1) => .ok (geomResult p0 p1 time)

/-! ## Store-passing model for the mutation claim

To express that matching never mutates the input series, the trackpoints are
placed in an explicit store (address to record map).  The Python function
only reads attributes of the listed objects; the only writes are the
construction of the fresh result object (`ret = Trackpoint(...)`) and
`ret.time = time`, modelled as an update at a fresh address. -/

/-- A fresh address: one past the largest address appearing in the input
list. -/
def freshAddr (addrs : List ℕ) : ℕ :=
  (addrs.foldr max 0) + 1

/-- Store-passing version of `findNearestTrackpoint`: the trackpoint list is
a list of addresses into the store; the result trackpoint, if any, is
written to a fresh address and its address is returned together with the
final store. -/
noncomputable def findNearestTrackpointStore (addrs : List ℕ) (σ : ℕ → Trackpoint)
    (time : ℚ) (interpolate : Bool) (threshold : ℚ) :
    (Option ℕ) × (ℕ → Trackpoint) :=
  match findNearestTrackpoint (addrs.map σ) time interpolate threshold with
  | .attributeError => (none, σ)
  | .ok tp => (some (freshAddr addrs), Function.update σ (freshAddr addrs) tp)

/-! ## Analysis of the scan loop

The following definitions are proof infrastructure describing the state of
the scan loop, not part of the source embedding. -/

/-- Absolute time distance from the query to a trackpoint. -/
def tdist (q : ℚ) (r : Trackpoint) : ℚ := |r.time - q|

/-- Which scan slot a trackpoint belongs to: `after = (delta >= 0)`. -/
def isAfter (q : ℚ) (r : Trackpoint) : Bool := decide (0 ≤ r.time - q)

/-- The point stored in a given slot. -/
def cpSlot (s : ScanState) : Bool → Option Trackpoint
  | false => s.cp0
  | true => s.cp1

/-- The recorded distance of a given slot. -/
def ctSlot (s : ScanState) : Bool → ℚ
  | false => s.ct0
  | true => s.ct1

/-- Relation of every list element to the designated nearest point `p`:
each other element is strictly farther, or ties with `p` being strictly
before the query and the other at or after it. -/
def goodFor (q : ℚ) (p r : Trackpoint) : Prop :=
  r = p ∨ tdist q p < tdist q r ∨
    (tdist q p = tdist q r ∧ isAfter q p = false ∧ isAfter q r = true)

/-- Scan invariant for one slot. -/
def slotInv (q thr : ℚ) (p : Trackpoint) (b : Bool) (cp : Option Trackpoint) (ct : ℚ) : Prop :=
  (cp = none ∧ ct = thr) ∨
  (∃ w, cp = some w ∧ isAfter q w = b ∧ ct = tdist q w ∧ ct < thr ∧ goodFor q p w)

/-- Scan invariant for the whole state. -/
def stateInv (q thr : ℚ) (p : Trackpoint) (s : ScanState) : Prop :=
  slotInv q thr p false s.cp0 s.ct0 ∧ slotInv q thr p true s.cp1 s.ct1

/-- The designated point has been recorded in its slot. -/
def pCaptured (q : ℚ) (p : Trackpoint) (s : ScanState) : Prop :=
  cpSlot s (isAfter q p) = some p ∧ ctSlot s (isAfter q p) = tdist q p

/-! ## Helper lemmas about pytrunc and interpolate_n -/

/-- For nonnegative arguments Python `int()` truncation agrees with the
floor. -/
lemma pytrunc_eq_floor {q : ℚ} (h : 0 ≤ q) : pytrunc q = ⌊q⌋ := by
  rw [pytrunc, Rat.floor_def, Int.tdiv_eq_ediv (Rat.num_nonneg.mpr h) (by positivity)]

/-- Closed form of the weight list for a pair of deltas. -/
lemma interpolateWeights_pair (d0 d1 : ℝ) :
    interpolateWeights [d0, d1] =
      if d0 = 0 ∨ d1 = 0 then
        [if d0 = 0 then (1 : ℝ) else 0, if d1 = 0 then (1 : ℝ) else 0]
      else [1 / d0, 1 / d1] := by
  by_cases h0 : d0 = 0 <;> by_cases h1 : d1 = 0 <;>
    simp [interpolateWeights, h0, h1]

/-- Closed form of `interpolate_n` on a pair. -/
lemma interpolate_n_pair (d0 d1 v0 v1 : ℝ) :
    interpolate_n [d0, d1] [v0, v1] =
      (v0 * (if d0 = 0 ∨ d1 = 0 then (if d0 = 0 then (1 : ℝ) else 0) else 1 / d0) +
       v1 * (if d0 = 0 ∨ d1 = 0 then (if d1 = 0 then (1 : ℝ) else 0) else 1 / d1)) /
      ((if d0 = 0 ∨ d1 = 0 then (if d0 = 0 then (1 : ℝ) else 0) else 1 / d0) +
       (if d0 = 0 ∨ d1 = 0 then (if d1 = 0 then (1 : ℝ) else 0) else 1 / d1)) := by
  rw [interpolate_n, interpolateWeights_pair]
  by_cases h : d0 = 0 ∨ d1 = 0 <;> simp [h]

/-- With equal deltas and equal values, `interpolate_n` returns the value
unchanged (this covers the collapsed, non-interpolated call). -/
lemma interpolate_n_pair_same (d v : ℝ) : interpolate_n [d, d] [v, v] = v := by
  rw [interpolate_n_pair]
  by_cases hd : d = 0
  · simp [hd]
    ring
  · simp [hd]
    field_simp
    ring

/-- With equal nonzero deltas, `interpolate_n` is the plain average. -/
lemma interpolate_n_pair_avg (d a b : ℝ) (hd : d ≠ 0) :
    interpolate_n [d, d] [a, b] = (a + b) / 2 := by
  rw [interpolate_n_pair, if_neg (by tauto)]
  rw [show a * (1 / d) + b * (1 / d) = (a + b) / d by ring,
      show (1 : ℝ) / d + 1 / d = 2 / d by ring,
      div_eq_div_iff (div_ne_zero two_ne_zero hd) two_ne_zero]
  ring

/-! ## Helper lemmas about atan2 -/

lemma atan2_cos_sin {θ : ℝ} (h1 : -Real.pi < θ) (h2 : θ ≤ Real.pi) :
    atan2 (Real.sin θ) (Real.cos θ) = θ := by
  rw [atan2, Complex.ofReal_cos, Complex.ofReal_sin]
  exact Complex.arg_cos_add_sin_mul_I ⟨h1, h2⟩

lemma atan2_smul (y x k : ℝ) (hk : 0 < k) : atan2 (k * y) (k * x) = atan2 y x := by
  rw [atan2, atan2]
  have h : ((k * x : ℝ) : ℂ) + ((k * y : ℝ) : ℂ) * Complex.I
      = (k : ℂ) * ((x : ℂ) + (y : ℂ) * Complex.I) := by
    push_cast
    ring
  rw [h, Complex.arg_real_mul _ hk]

lemma atan2_zero_nonneg {x : ℝ} (hx : 0 ≤ x) : atan2 0 x = 0 := by
  rw [atan2]
  simp only [Complex.ofReal_zero, zero_mul, add_zero]
  exact Complex.arg_ofReal_of_nonneg hx

lemma atan2_zero_neg {x : ℝ} (hx : x < 0) : atan2 0 x = Real.pi := by
  rw [atan2]
  simp only [Complex.ofReal_zero, zero_mul, add_zero]
  exact Complex.arg_ofReal_of_neg hx

/-! ## The n-vector round trip

The source converts degrees to an angle by multiplying with `pi/90` (lines
111-113 and 124-125) instead of `pi/180`, so the angle of a coordinate `c` is
`c/90*pi`, twice the correct radian measure.  The round trip through the
normal vector and `atan2` is therefore only the identity while the doubled
angles stay inside the principal ranges of `atan2`, i.e. for latitudes in
`(-45, 45)` and longitudes in `(-90, 90]`. -/

lemma nvec_normSq (p : Trackpoint) : normSq (nvec p) = 1 := by
  simp only [normSq, nvec]
  nlinarith [Real.sin_sq_add_cos_sq (p.lat / 90 * Real.pi),
    Real.sin_sq_add_cos_sq (p.lon / 90 * Real.pi)]

lemma nvec_xy_sq (p : Trackpoint) :
    (nvec p).1 ^ 2 + (nvec p).2.1 ^ 2 = Real.cos (p.lat / 90 * Real.pi) ^ 2 := by
  simp only [nvec]
  nlinarith [Real.sin_sq_add_cos_sq (p.lon / 90 * Real.pi)]

lemma angle_roundtrip (x : ℝ) : x / 90 * Real.pi / Real.pi * 90 = x := by
  field_simp
  ring

/-- When both selected points coincide (exact hit, or the non-interpolated
collapse) the geometric phase returns the point's coordinates unchanged,
provided its latitude lies in `(-45, 45)` and its longitude in `(-90, 90]`;
the timestamp of the result is the query time. -/
theorem geom_pair_same (p : Trackpoint) (q : ℚ)
    (h1 : -45 < p.lat) (h2 : p.lat < 45) (h3 : -90 < p.lon) (h4 : p.lon ≤ 90) :
    geomResult p p q = ⟨p.lat, p.lon, p.ele, q⟩ := by
  have hpi := Real.pi_pos
  have ht1 : -(Real.pi / 2) < p.lat / 90 * Real.pi := by nlinarith
  have ht2 : p.lat / 90 * Real.pi < Real.pi / 2 := by nlinarith
  have hp1 : -Real.pi < p.lon / 90 * Real.pi := by nlinarith
  have hp2 : p.lon / 90 * Real.pi ≤ Real.pi := by nlinarith
  have hcos : 0 < Real.cos (p.lat / 90 * Real.pi) :=
    Real.cos_pos_of_mem_Ioo ⟨ht1, ht2⟩
  have hin : interpNormal p p q = nvec p := by
    simp only [interpNormal, timeDeltas, interpolate_n_pair_same]
  have hnorm : normalizeV (interpNormal p p q) = nvec p := by
    rw [hin, normalizeV, nvec_normSq]
    simp
  simp only [geomResult, hnorm]
  have hele : interpolate_n (timeDeltas p p q) [p.ele, p.ele] = p.ele := by
    simp only [timeDeltas, interpolate_n_pair_same]
  rw [hele, nvec_xy_sq, Real.sqrt_sq hcos.le]
  have hlat : (nvec p).2.2 = Real.sin (p.lat / 90 * Real.pi) := rfl
  have hlon1 : (nvec p).2.1
      = Real.cos (p.lat / 90 * Real.pi) * Real.sin (p.lon / 90 * Real.pi) := rfl
  have hlonx : (nvec p).1
      = Real.cos (p.lat / 90 * Real.pi) * Real.cos (p.lon / 90 * Real.pi) := rfl
  rw [hlat, hlon1, hlonx, atan2_cos_sin (by linarith) (by linarith),
    atan2_smul _ _ _ hcos, atan2_cos_sin hp1 hp2, angle_roundtrip, angle_roundtrip]

/-! ## Concrete geometry evaluations -/

/-- An exact-timestamp hit at latitude 67.5, longitude 0: the doubled angle
conversion maps it to latitude 22.5, longitude 90. -/
lemma geom_exact_hit_distorted : geomResult ⟨135/2, 0, 0, 0⟩ ⟨135/2, 0, 0, 0⟩ 0 = ⟨45/2, 90, 0, 0⟩ := by
  have hpi := Real.pi_pos
  have hs2 : (0:ℝ) < Real.sqrt 2 := Real.sqrt_pos.mpr (by norm_num)
  have hd : timeDeltas (⟨135/2, 0, 0, 0⟩ : Trackpoint) ⟨135/2, 0, 0, 0⟩ 0 = [0, 0] := by
    norm_num [timeDeltas]
  have hcos34 : Real.cos ((135:ℝ)/2/90*Real.pi) = -(Real.sqrt 2/2) := by
    rw [show (135:ℝ)/2/90*Real.pi = Real.pi - Real.pi/4 from by ring,
      Real.cos_pi_sub, Real.cos_pi_div_four]
  have hsin34 : Real.sin ((135:ℝ)/2/90*Real.pi) = Real.sqrt 2/2 := by
    rw [show (135:ℝ)/2/90*Real.pi = Real.pi - Real.pi/4 from by ring,
      Real.sin_pi_sub, Real.sin_pi_div_four]
  have hnv : nvec ⟨135/2, 0, 0, 0⟩ = (-(Real.sqrt 2 / 2), 0, Real.sqrt 2 / 2) := by
    simp only [nvec]
    rw [hcos34, hsin34]
    norm_num
  have hin : interpNormal ⟨135/2, 0, 0, 0⟩ ⟨135/2, 0, 0, 0⟩ 0
      = (-(Real.sqrt 2 / 2), 0, Real.sqrt 2 / 2) := by
    simp only [interpNormal, hd, hnv, interpolate_n_pair_same]
  have hns : normSq ((-(Real.sqrt 2 / 2), 0, Real.sqrt 2 / 2) : ℝ × ℝ × ℝ) = 1 := by
    simp only [normSq]
    nlinarith [Real.sq_sqrt (by norm_num : (0:ℝ) ≤ 2)]
  have hnorm : normalizeV (interpNormal ⟨135/2, 0, 0, 0⟩ ⟨135/2, 0, 0, 0⟩ 0)
      = (-(Real.sqrt 2 / 2), 0, Real.sqrt 2 / 2) := by
    rw [hin, normalizeV, hns]
    norm_num
  have hele : interpolate_n (timeDeltas ⟨135/2, 0, 0, 0⟩ ⟨135/2, 0, 0, 0⟩ 0) [(0:ℝ), 0] = 0 := by
    rw [hd, interpolate_n_pair_same]
  have hat : atan2 (Real.sqrt 2/2) (Real.sqrt 2/2) = Real.pi/4 := by
    have h := atan2_cos_sin (θ := Real.pi/4) (by linarith) (by linarith)
    rwa [Real.sin_pi_div_four, Real.cos_pi_div_four] at h
  simp only [geomResult, hnorm]
  rw [show ((-(Real.sqrt 2 / 2) : ℝ)) ^ 2 + (0:ℝ) ^ 2 = (Real.sqrt 2 / 2) ^ 2 from by ring,
    Real.sqrt_sq (by positivity)]
  rw [hat, atan2_zero_neg (show (-(Real.sqrt 2/2) : ℝ) < 0 from by nlinarith)]
  have h90 : Real.pi / Real.pi * 90 = (90:ℝ) := by
    rw [div_self (ne_of_gt hpi)]
    norm_num
  have h45 : Real.pi/4 / Real.pi * 90 = (45:ℝ)/2 := by
    field_simp
    ring
  rw [h90, h45]
  simp only [Trackpoint.mk.injEq]
  exact ⟨trivial, trivial, hele, trivial⟩

/-- Midpoint between longitudes -90 and 90 on the equator: both points map to
the same doubled-angle normal vector and the result longitude is 90, not the
arithmetic midpoint 0. -/
lemma geom_antipodal_lons : geomResult ⟨0, -90, 0, 0⟩ ⟨0, 90, 0, 100⟩ 50 = ⟨0, 90, 0, 50⟩ := by
  have hpi := Real.pi_pos
  have hd : timeDeltas (⟨0, -90, 0, 0⟩ : Trackpoint) ⟨0, 90, 0, 100⟩ 50 = [50, 50] := by
    norm_num [timeDeltas]
  have hnv0 : nvec ⟨0, -90, 0, 0⟩ = (-1, 0, 0) := by
    simp only [nvec]
    rw [show (-90:ℝ)/90*Real.pi = -Real.pi from by ring,
      show (0:ℝ)/90*Real.pi = 0 from by ring]
    rw [Real.cos_neg, Real.sin_neg, Real.cos_pi, Real.sin_pi]
    norm_num
  have hnv1 : nvec ⟨0, 90, 0, 100⟩ = (-1, 0, 0) := by
    simp only [nvec]
    rw [show (90:ℝ)/90*Real.pi = Real.pi from by ring,
      show (0:ℝ)/90*Real.pi = 0 from by ring]
    rw [Real.cos_pi, Real.sin_pi]
    norm_num
  have hin : interpNormal ⟨0, -90, 0, 0⟩ ⟨0, 90, 0, 100⟩ 50 = (-1, 0, 0) := by
    simp only [interpNormal, hd, hnv0, hnv1, interpolate_n_pair_same]
  have hns : normSq ((-1, 0, 0) : ℝ × ℝ × ℝ) = 1 := by
    simp only [normSq]
    norm_num
  have hnorm : normalizeV (interpNormal ⟨0, -90, 0, 0⟩ ⟨0, 90, 0, 100⟩ 50) = (-1, 0, 0) := by
    rw [hin, normalizeV, hns]
    norm_num
  have hele : interpolate_n (timeDeltas ⟨0, -90, 0, 0⟩ ⟨0, 90, 0, 100⟩ 50) [(0:ℝ), 0] = 0 := by
    rw [hd, interpolate_n_pair_same]
  simp only [geomResult, hnorm]
  rw [show ((-1:ℝ)) ^ 2 + (0:ℝ) ^ 2 = 1 from by ring, Real.sqrt_one]
  rw [atan2_zero_nonneg (by norm_num : (0:ℝ) ≤ 1),
    atan2_zero_neg (by norm_num : (-1:ℝ) < 0)]
  rw [show (0:ℝ) / Real.pi * 90 = 0 from by ring,
    show Real.pi / Real.pi * 90 = (90:ℝ) from by rw [div_self (ne_of_gt hpi)]; norm_num]
  simp only [Trackpoint.mk.injEq]
  exact ⟨trivial, trivial, hele, trivial⟩

/-- Midpoint interpolation between two equator points whose longitudes are
less than 90 degrees apart and whose mean longitude lies in `(-90, 90]`:
the result is the arithmetic midpoint of longitudes and elevations. -/
lemma geom_equator_pair (l0 l1 e0 e1 : ℝ) (t0 t1 q : ℚ)
    (hdeq : |(q:ℝ) - (t0:ℝ)| = |(q:ℝ) - (t1:ℝ)|) (hdne : |(q:ℝ) - (t0:ℝ)| ≠ 0)
    (hgap : |l0 - l1| < 90) (hmid1 : -90 < (l0 + l1) / 2) (hmid2 : (l0 + l1) / 2 ≤ 90) :
    geomResult ⟨0, l0, e0, t0⟩ ⟨0, l1, e1, t1⟩ q = ⟨0, (l0 + l1) / 2, (e0 + e1) / 2, q⟩ := by
  have hpi := Real.pi_pos
  set φ0 : ℝ := l0 / 90 * Real.pi with hphi0
  set φ1 : ℝ := l1 / 90 * Real.pi with hphi1
  set μ : ℝ := (l0 + l1) / 2 / 90 * Real.pi with hmu
  set δ : ℝ := (l0 - l1) / 2 / 90 * Real.pi with hdelta
  have hμ : (φ0 + φ1) / 2 = μ := by rw [hphi0, hphi1, hmu]; ring
  have hδ : (φ0 - φ1) / 2 = δ := by rw [hphi0, hphi1, hdelta]; ring
  have habs : -90 < l0 - l1 ∧ l0 - l1 < 90 := abs_lt.mp hgap
  have hδ1 : -(Real.pi / 2) < δ := by rw [hdelta]; nlinarith [habs.1]
  have hδ2 : δ < Real.pi / 2 := by rw [hdelta]; nlinarith [habs.2]
  have hc : 0 < Real.cos δ := Real.cos_pos_of_mem_Ioo ⟨hδ1, hδ2⟩
  have hμ1 : -Real.pi < μ := by rw [hmu]; nlinarith
  have hμ2 : μ ≤ Real.pi := by rw [hmu]; nlinarith
  set d : ℝ := |(q:ℝ) - (t0:ℝ)| with hdd
  have hd : timeDeltas (⟨0, l0, e0, t0⟩ : Trackpoint) ⟨0, l1, e1, t1⟩ q = [d, d] := by
    simp only [timeDeltas]
    rw [← hdeq]
  have hnv0 : nvec ⟨0, l0, e0, t0⟩ = (Real.cos φ0, Real.sin φ0, 0) := by
    simp only [nvec]
    rw [show (0:ℝ)/90*Real.pi = 0 from by ring, Real.cos_zero, Real.sin_zero]
    norm_num
  have hnv1 : nvec ⟨0, l1, e1, t1⟩ = (Real.cos φ1, Real.sin φ1, 0) := by
    simp only [nvec]
    rw [show (0:ℝ)/90*Real.pi = 0 from by ring, Real.cos_zero, Real.sin_zero]
    norm_num
  have hsinadd : Real.sin φ0 + Real.sin φ1
      = 2 * Real.sin ((φ0 + φ1) / 2) * Real.cos ((φ0 - φ1) / 2) := by
    have h := Real.sin_sub_sin φ0 (-φ1)
    rw [Real.sin_neg, sub_neg_eq_add, show φ0 - -φ1 = φ0 + φ1 from by ring,
      show φ0 + -φ1 = φ0 - φ1 from by ring] at h
    exact h
  have hx : (Real.cos φ0 + Real.cos φ1) / 2 = Real.cos μ * Real.cos δ := by
    rw [Real.cos_add_cos, hμ, hδ]
    ring
  have hy : (Real.sin φ0 + Real.sin φ1) / 2 = Real.sin μ * Real.cos δ := by
    rw [hsinadd, hμ, hδ]
    ring
  have hin : interpNormal ⟨0, l0, e0, t0⟩ ⟨0, l1, e1, t1⟩ q
      = (Real.cos μ * Real.cos δ, Real.sin μ * Real.cos δ, 0) := by
    simp only [interpNormal, hd, hnv0, hnv1]
    rw [interpolate_n_pair_avg _ _ _ hdne, interpolate_n_pair_avg _ _ _ hdne,
      interpolate_n_pair_same, hx, hy]
  have hns : normSq ((Real.cos μ * Real.cos δ, Real.sin μ * Real.cos δ, 0) : ℝ × ℝ × ℝ)
      = Real.cos δ ^ 2 := by
    simp only [normSq]
    nlinarith [Real.sin_sq_add_cos_sq μ]
  have hnorm : normalizeV (interpNormal ⟨0, l0, e0, t0⟩ ⟨0, l1, e1, t1⟩ q)
      = ((1 / Real.cos δ) * Real.cos μ, (1 / Real.cos δ) * Real.sin μ, 0) := by
    rw [hin, normalizeV, hns]
    have hcne : Real.cos δ ≠ 0 := ne_of_gt hc
    simp only [Prod.mk.injEq]
    refine ⟨?_, ?_, ?_⟩
    · rw [pow_two,
        show Real.cos μ * Real.cos δ / (Real.cos δ * Real.cos δ)
          = Real.cos μ * (Real.cos δ / Real.cos δ) / Real.cos δ from by ring,
        div_self hcne]
      ring
    · rw [pow_two,
        show Real.sin μ * Real.cos δ / (Real.cos δ * Real.cos δ)
          = Real.sin μ * (Real.cos δ / Real.cos δ) / Real.cos δ from by ring,
        div_self hcne]
      ring
    · exact zero_div _
  have hsqrtarg : ((1 / Real.cos δ) * Real.cos μ) ^ 2 + ((1 / Real.cos δ) * Real.sin μ) ^ 2
      = (1 / Real.cos δ) ^ 2 := by
    linear_combination ((1 / Real.cos δ) ^ 2) * Real.sin_sq_add_cos_sq μ
  have hele : interpolate_n (timeDeltas ⟨0, l0, e0, t0⟩ ⟨0, l1, e1, t1⟩ q) [e0, e1]
      = (e0 + e1) / 2 := by
    rw [hd, interpolate_n_pair_avg _ _ _ hdne]
  simp only [geomResult, hnorm]
  rw [hsqrtarg, Real.sqrt_sq (by positivity), atan2_zero_nonneg (by positivity),
    atan2_smul _ _ _ (by positivity), atan2_cos_sin hμ1 hμ2]
  rw [show (0:ℝ) / Real.pi * 90 = 0 from by ring, hmu, angle_roundtrip]
  simp only [Trackpoint.mk.injEq]
  exact ⟨trivial, trivial, hele, trivial⟩

/-! ## Correctness of the scan loop for a strictly nearest point -/

lemma slotInv_ct_le {q thr : ℚ} {p : Trackpoint} {b : Bool} {cp : Option Trackpoint}
    {ct : ℚ} (h : slotInv q thr p b cp ct) : ct ≤ thr := by
  rcases h with ⟨-, h⟩ | ⟨w, -, -, -, h, -⟩
  · exact le_of_eq h
  · exact le_of_lt h

lemma scanStep_inv {q thr : ℚ} {p : Trackpoint} {s : ScanState} {r : Trackpoint}
    (hr : goodFor q p r) (h : stateInv q thr p s) :
    stateInv q thr p (scanStep q s r) := by
  obtain ⟨h0, h1⟩ := h
  rw [scanStep]
  by_cases ha : 0 ≤ r.time - q
  · rw [if_pos ha]
    by_cases hlt : |r.time - q| < s.ct1
    · rw [if_pos hlt]
      refine ⟨h0, Or.inr ⟨r, rfl, ?_, rfl, ?_, hr⟩⟩
      · simp [isAfter, ha]
      · exact lt_of_lt_of_le hlt (slotInv_ct_le h1)
    · rw [if_neg hlt]
      exact ⟨h0, h1⟩
  · rw [if_neg ha]
    by_cases hlt : |r.time - q| < s.ct0
    · rw [if_pos hlt]
      refine ⟨Or.inr ⟨r, rfl, ?_, rfl, ?_, hr⟩, h1⟩
      · simp [isAfter, ha]
      · exact lt_of_lt_of_le hlt (slotInv_ct_le h0)
    · rw [if_neg hlt]
      exact ⟨h0, h1⟩

lemma scanStep_keeps {q thr : ℚ} {p : Trackpoint} {s : ScanState} {r : Trackpoint}
    (hr : goodFor q p r) (h : stateInv q thr p s) (hcap : pCaptured q p s) :
    pCaptured q p (scanStep q s r) := by
  obtain ⟨hcp, hct⟩ := hcap
  rw [pCaptured, scanStep]
  by_cases ha : 0 ≤ r.time - q
  · rw [if_pos ha]
    by_cases hb : isAfter q p
    · -- same slot: the update cannot fire
      rw [hb] at hcp hct
      have hlt : ¬ |r.time - q| < s.ct1 := by
        rw [show s.ct1 = ctSlot s true from rfl, hct]
        rcases hr with hrp | hlt' | ⟨heq, hpf, -⟩
        · subst hrp
          exact lt_irrefl _
        · rw [tdist] at hlt'
          intro hcon
          rw [tdist] at hcon
          exact absurd (hcon.trans hlt') (lt_irrefl _)
        · rw [hb] at hpf
          exact absurd hpf (by simp)
      rw [if_neg hlt, hb]
      exact ⟨hcp, hct⟩
    · -- p sits in slot 0, the update only touches slot 1
      rw [Bool.not_eq_true] at hb
      rw [hb] at hcp hct ⊢
      by_cases hlt : |r.time - q| < s.ct1
      · rw [if_pos hlt]
        exact ⟨hcp, hct⟩
      · rw [if_neg hlt]
        exact ⟨hcp, hct⟩
  · rw [if_neg ha]
    by_cases hb : isAfter q p
    · rw [hb] at hcp hct ⊢
      by_cases hlt : |r.time - q| < s.ct0
      · rw [if_pos hlt]
        exact ⟨hcp, hct⟩
      · rw [if_neg hlt]
        exact ⟨hcp, hct⟩
    · rw [Bool.not_eq_true] at hb
      rw [hb] at hcp hct
      have hlt : ¬ |r.time - q| < s.ct0 := by
        rw [show s.ct0 = ctSlot s false from rfl, hct]
        rcases hr with hrp | hlt' | ⟨heq, -, hrt⟩
        · subst hrp
          exact lt_irrefl _
        · rw [tdist] at hlt'
          intro hcon
          rw [tdist] at hcon
          exact absurd (hcon.trans hlt') (lt_irrefl _)
        · have : (0 : ℚ) ≤ r.time - q := by
            have := hrt
            rw [isAfter, decide_eq_true_eq] at this
            exact this
          exact absurd this ha
      rw [if_neg hlt, hb]
      exact ⟨hcp, hct⟩

lemma scanStep_captures_self {q thr : ℚ} {p : Trackpoint} {s : ScanState}
    (hthr : tdist q p < thr) (h : stateInv q thr p s) :
    pCaptured q p (scanStep q s p) := by
  obtain ⟨h0, h1⟩ := h
  rw [pCaptured, scanStep]
  by_cases ha : 0 ≤ p.time - q
  · have hb : isAfter q p = true := by simp [isAfter, ha]
    rw [if_pos ha, hb]
    by_cases hlt : |p.time - q| < s.ct1
    · rw [if_pos hlt]
      exact ⟨rfl, rfl⟩
    · rw [if_neg hlt]
      rcases h1 with ⟨-, hct⟩ | ⟨w, hw, -, hct, -, hgood⟩
      · rw [tdist] at hthr
        rw [hct] at hlt
        exact absurd hthr hlt
      · rcases hgood with hwp | hlt' | ⟨-, hpf, -⟩
        · subst hwp
          refine ⟨hw, ?_⟩
          rw [show ctSlot s true = s.ct1 from rfl, hct]
        · rw [hct] at hlt
          simp only [tdist] at hlt hlt'
          exact absurd hlt' (by simpa using hlt)
        · rw [hb] at hpf
          exact absurd hpf (by simp)
  · have hb : isAfter q p = false := by simp [isAfter, ha]
    rw [if_neg ha, hb]
    by_cases hlt : |p.time - q| < s.ct0
    · rw [if_pos hlt]
      exact ⟨rfl, rfl⟩
    · rw [if_neg hlt]
      rcases h0 with ⟨-, hct⟩ | ⟨w, hw, hwa, hct, -, hgood⟩
      · rw [tdist] at hthr
        rw [hct] at hlt
        exact absurd hthr hlt
      · rcases hgood with hwp | hlt' | ⟨-, -, hrt⟩
        · subst hwp
          refine ⟨hw, ?_⟩
          rw [show ctSlot s false = s.ct0 from rfl, hct]
        · rw [hct] at hlt
          simp only [tdist] at hlt hlt'
          exact absurd hlt' (by simpa using hlt)
        · rw [hwa] at hrt
          exact absurd hrt (by simp)

end Geotag

namespace Geotag

lemma scan_foldl_inv (q thr : ℚ) (p : Trackpoint) (hthr : tdist q p < thr) :
    ∀ (R : List Trackpoint) (s : ScanState),
      (∀ r ∈ R, goodFor q p r) → stateInv q thr p s →
      (pCaptured q p s ∨ p ∈ R) →
      stateInv q thr p (R.foldl (scanStep q) s) ∧
        pCaptured q p (R.foldl (scanStep q) s) := by
  intro R
  induction R with
  | nil =>
    intro s _ hinv hcap
    exact ⟨hinv, hcap.resolve_right (List.not_mem_nil p)⟩
  | cons r R' ih =>
    intro s hgood hinv hcap
    have hgr : goodFor q p r := hgood r (List.mem_cons_self r R')
    have hgood' : ∀ x ∈ R', goodFor q p x := fun x hx => hgood x (List.mem_cons_of_mem r hx)
    have hinv' : stateInv q thr p (scanStep q s r) := scanStep_inv hgr hinv
    have hcap' : pCaptured q p (scanStep q s r) ∨ p ∈ R' := by
      rcases hcap with hc | hm
      · exact Or.inl (scanStep_keeps hgr hinv hc)
      · rcases List.mem_cons.mp hm with hpr | hm'
        · subst hpr
          exact Or.inl (scanStep_captures_self hthr hinv)
        · exact Or.inr hm'
    exact ih (scanStep q s r) hgood' hinv' hcap'

lemma collapse_left (q : ℚ) (a b : Trackpoint) (h : |a.time - q| ≤ |b.time - q|) :
    collapse q (a, b) = (a, a) := by
  rw [collapse]
  simp only [if_pos h]
  simp

lemma collapse_right (q : ℚ) (a b : Trackpoint) (h : ¬ |a.time - q| ≤ |b.time - q|) :
    collapse q (a, b) = (b, b) := by
  rw [collapse]
  simp only [if_neg h]
  have h2 : |b.time - q| ≤ |a.time - q| := le_of_lt (not_le.mp h)
  simp only [if_pos h2]

lemma select_collapse (q thr : ℚ) (p : Trackpoint) (L : List Trackpoint)
    (hp : p ∈ L) (hthr : tdist q p < thr)
    (hgood : ∀ r ∈ L, goodFor q p r) :
    selectPoints L q false thr = some (p, p) := by
  have hinit : stateInv q thr p ⟨none, thr, none, thr⟩ :=
    ⟨Or.inl ⟨rfl, rfl⟩, Or.inl ⟨rfl, rfl⟩⟩
  obtain ⟨hinv, hcap⟩ :=
    scan_foldl_inv q thr p hthr L ⟨none, thr, none, thr⟩ hgood hinit (Or.inr hp)
  rw [selectPoints]
  have hss : scanList L q thr = L.foldl (scanStep q) ⟨none, thr, none, thr⟩ := by
    rw [scanList]
  rw [← hss] at hinv hcap
  obtain ⟨hcp, hct⟩ := hcap
  have hfneg : ¬ (false = true) := Bool.false_ne_true
  by_cases hb : isAfter q p
  · rw [hb] at hcp hct
    have hcp1 : (scanList L q thr).cp1 = some p := hcp
    have hct1 : (scanList L q thr).ct1 = tdist q p := hct
    rcases hinv.1 with ⟨hn, -⟩ | ⟨w, hw, hwa, hwct, -, hgoodw⟩
    · rw [hn, hcp1]
      simp only [fillPoints, if_neg hfneg]
      rw [collapse_left q p p le_rfl]
    · rw [hw, hcp1]
      simp only [fillPoints, if_neg hfneg]
      rcases hgoodw with hwp | hlt2 | ⟨-, -, hrt⟩
      · subst hwp
        rw [collapse_left q w w le_rfl]
      · simp only [tdist] at hlt2
        rw [collapse_right q w p (not_le.mpr hlt2)]
      · rw [hwa] at hrt
        exact absurd hrt (by simp)
  · rw [Bool.not_eq_true] at hb
    rw [hb] at hcp hct
    have hcp0 : (scanList L q thr).cp0 = some p := hcp
    have hct0 : (scanList L q thr).ct0 = tdist q p := hct
    rcases hinv.2 with ⟨hn, -⟩ | ⟨w, hw, hwa, hwct, -, hgoodw⟩
    · rw [hn, hcp0]
      simp only [fillPoints, if_neg hfneg]
      rw [collapse_left q p p le_rfl]
    · rw [hw, hcp0]
      simp only [fillPoints, if_neg hfneg]
      rcases hgoodw with hwp | hlt2 | ⟨heq, -, -⟩
      · subst hwp
        rw [collapse_left q w w le_rfl]
      · simp only [tdist] at hlt2
        rw [collapse_left q p w (le_of_lt hlt2)]
      · simp only [tdist] at heq
        rw [collapse_left q p w (le_of_eq heq)]

/-! ## Shared concrete evaluations -/

/-- Exact-timestamp hit on a single equatorial trackpoint: the full pipeline
returns the point unchanged (latitude 0 and longitude 0 are inside the exact
round-trip region). -/
lemma exact_hit_eval :
    findNearestTrackpoint [⟨0, 0, 7, 0⟩] 0 true 100 = .ok ⟨0, 0, 7, 0⟩ := by
  have hsel : selectPoints [⟨0, 0, 7, 0⟩] 0 true 100
      = some (⟨0, 0, 7, 0⟩, ⟨0, 0, 7, 0⟩) := by
    norm_num [selectPoints, scanList, List.foldl, scanStep, fillPoints]
  rw [findNearestTrackpoint, hsel]
  show MatchOutcome.ok (geomResult ⟨0, 0, 7, 0⟩ ⟨0, 0, 7, 0⟩ 0) = _
  rw [geom_pair_same ⟨0, 0, 7, 0⟩ 0 (by norm_num) (by norm_num) (by norm_num) (by norm_num)]

/-- Evaluation lemma for one scan step landing in the before slot. -/
lemma scanStep_before {q : ℚ} {s : ScanState} {r : Trackpoint}
    (ha : ¬ 0 ≤ r.time - q) (hlt : |r.time - q| < s.ct0) :
    scanStep q s r = { s with cp0 := some r, ct0 := |r.time - q| } := by
  rw [scanStep, if_neg ha, if_pos hlt]

/-- Evaluation lemma for one scan step landing in the after slot. -/
lemma scanStep_after {q : ℚ} {s : ScanState} {r : Trackpoint}
    (ha : 0 ≤ r.time - q) (hlt : |r.time - q| < s.ct1) :
    scanStep q s r = { s with cp1 := some r, ct1 := |r.time - q| } := by
  rw [scanStep, if_pos ha, if_pos hlt]

/-- Address returned for the concrete store run used below. -/
lemma store_eval_concrete :
    (findNearestTrackpointStore [0] (fun _ => ⟨0, 0, 7, 0⟩) 0 true 100).1 = some 1 := by
  rw [findNearestTrackpointStore]
  have hmap : ([0].map (fun _ => (⟨0, 0, 7, 0⟩ : Trackpoint))) = [⟨0, 0, 7, 0⟩] := rfl
  rw [hmap, exact_hit_eval]
  rfl

/-! ## The claims -/

/-- Claim C1: the claim states that an exact-timestamp interpolated hit
returns the trackpoint's latitude, longitude and elevation unchanged.  The
code converts degrees to angles by `pi/90` (instead of `pi/180`), so the
n-vector round trip is not the identity: at the failing input, a single
trackpoint with latitude 67.5 and longitude 0 queried exactly at its
timestamp, the code returns latitude 22.5 and longitude 90.  This theorem
evaluates the code at that failing input. -/
theorem claim1_code_eval :
    findNearestTrackpoint [⟨135/2, 0, 0, 0⟩] 0 true 100 = .ok ⟨45/2, 90, 0, 0⟩ ∧
    ((45 : ℝ)/2 ≠ 135/2 ∧ (90 : ℝ) ≠ 0) := by
  refine ⟨?_, by norm_num, by norm_num⟩
  have hsel : selectPoints [⟨135/2, 0, 0, 0⟩] 0 true 100
      = some (⟨135/2, 0, 0, 0⟩, ⟨135/2, 0, 0, 0⟩) := by
    norm_num [selectPoints, scanList, List.foldl, scanStep, fillPoints]
  rw [findNearestTrackpoint, hsel]
  show MatchOutcome.ok (geomResult ⟨135/2, 0, 0, 0⟩ ⟨135/2, 0, 0, 0⟩ 0) = _
  rw [geom_exact_hit_distorted]

/-- Claim C2: the claim states that with an empty series, or when no
trackpoint lies within the threshold, `findNearestTrackpoint` returns `None`
and never raises.  In the code both bracket slots stay `None` in those cases
and the subsequent attribute access raises `AttributeError` (the docstring
promises `None`); the function never returns `None`.  This theorem evaluates
the code on the empty list and on the series `[(t=0),(t=100)]` with query
`t=200` and threshold 50. -/
theorem claim2_code_eval :
    (∀ (i : Bool) (q thr : ℚ), findNearestTrackpoint [] q i thr = .attributeError) ∧
    (∀ i : Bool, findNearestTrackpoint [⟨0, 0, 0, 0⟩, ⟨0, 10, 100, 100⟩] 200 i 50
      = .attributeError) := by
  refine ⟨fun i q thr => rfl, fun i => ?_⟩
  have hsel : selectPoints [⟨0, 0, 0, 0⟩, ⟨0, 10, 100, 100⟩] 200 i 50 = none := by
    norm_num [selectPoints, scanList, List.foldl, scanStep, fillPoints]
  rw [findNearestTrackpoint, hsel]

/-- Claim C3 counterexample: a single trackpoint at distance exactly equal to
the threshold is rejected by the strict comparison `abs(delta) <
closestTimes[after]`: no candidate is accepted (`selectPoints` is `none`) and
the call does not produce a match, contradicting the claimed inclusive
acceptance. -/
theorem claim3_counterexample :
    selectPoints [⟨0, 0, 0, 0⟩] 50 true 50 = none ∧
    findNearestTrackpoint [⟨0, 0, 0, 0⟩] 50 true 50 = .attributeError := by
  have hsel : selectPoints [⟨0, 0, 0, 0⟩] 50 true 50 = none := by
    norm_num [selectPoints, scanList, List.foldl, scanStep, fillPoints]
  exact ⟨hsel, by rw [findNearestTrackpoint, hsel]⟩

/-- Claim C3, amended: acceptance of a candidate is strict
(`abs delta < threshold`); a trackpoint whose absolute time delta equals the
threshold is not accepted, and with a single such trackpoint the function
takes the no-candidate path (the attribute error), not a match. -/
theorem claim3_amended (tp : Trackpoint) (q thr : ℚ) (i : Bool)
    (h : |tp.time - q| = thr) :
    findNearestTrackpoint [tp] q i thr = .attributeError := by
  have hsel : selectPoints [tp] q i thr = none := by
    rw [selectPoints, scanList]
    simp only [List.foldl]
    rw [scanStep]
    by_cases ha : 0 ≤ tp.time - q
    · rw [if_pos ha, if_neg (by rw [h]; exact lt_irrefl thr)]
      rfl
    · rw [if_neg ha, if_neg (by rw [h]; exact lt_irrefl thr)]
      rfl
  rw [findNearestTrackpoint, hsel]

/-- Witness for claim C3 at a concrete input. -/
theorem claim3_witness :
    |(⟨0, 0, 0, 0⟩ : Trackpoint).time - 50| = (50 : ℚ) ∧
    findNearestTrackpoint [⟨0, 0, 0, 0⟩] 50 true 50 = .attributeError := by
  have h : |(⟨0, 0, 0, 0⟩ : Trackpoint).time - 50| = (50 : ℚ) := by norm_num
  exact ⟨h, claim3_amended _ _ _ true h⟩

/-- Claim C4, amended: with `interpolate=False` and a strictly nearest
in-threshold trackpoint `p` (ties only against points at or after the query,
which the code resolves in favour of the earlier point), the result collapses
both slots to `p` and returns `p`'s latitude, longitude and elevation
(exactly, provided `p` lies in the exact round-trip region, latitude in
`(-45, 45)` and longitude in `(-90, 90]`) — but with the `time` field set to
the query time, not `p`'s timestamp. -/
theorem claim4_amended (L : List Trackpoint) (q thr : ℚ) (p : Trackpoint)
    (_hsort : L.Sorted (fun a b => a.time ≤ b.time))
    (hp : p ∈ L) (hthr : |p.time - q| < thr)
    (hnear : ∀ r ∈ L, r ≠ p → |p.time - q| < |r.time - q| ∨
      (|p.time - q| = |r.time - q| ∧ p.time < q ∧ q ≤ r.time))
    (hlat1 : -45 < p.lat) (hlat2 : p.lat < 45)
    (hlon1 : -90 < p.lon) (hlon2 : p.lon ≤ 90) :
    findNearestTrackpoint L q false thr = .ok ⟨p.lat, p.lon, p.ele, q⟩ := by
  have hgood : ∀ r ∈ L, goodFor q p r := by
    intro r hr
    by_cases hrp : r = p
    · exact Or.inl hrp
    · rcases hnear r hr hrp with hlt | ⟨heq, hpq, hqr⟩
      · exact Or.inr (Or.inl (by simp only [tdist]; exact hlt))
      · refine Or.inr (Or.inr ⟨by simp only [tdist]; exact heq, ?_, ?_⟩)
        · simp only [isAfter, decide_eq_false_iff_not, not_le]
          linarith
        · simp only [isAfter, decide_eq_true_eq]
          linarith
  have hsel := select_collapse q thr p L hp (by simp only [tdist]; exact hthr) hgood
  rw [findNearestTrackpoint, hsel]
  show MatchOutcome.ok (geomResult p p q)
    = MatchOutcome.ok ⟨p.lat, p.lon, p.ele, q⟩
  rw [geom_pair_same p q hlat1 hlat2 hlon1 hlon2]

/-- Claim C4 counterexample: the non-interpolated result is not identical to
the nearest existing sample: its timestamp is the query time (10), not the
sample's (0). -/
theorem claim4_counterexample :
    findNearestTrackpoint [⟨0, 0, 7, 0⟩] 10 false 100 = .ok ⟨0, 0, 7, 10⟩ ∧
    MatchOutcome.ok (⟨0, 0, 7, 10⟩ : Trackpoint) ≠ .ok ⟨0, 0, 7, 0⟩ := by
  constructor
  · have hsel : selectPoints [⟨0, 0, 7, 0⟩] 10 false 100
        = some (⟨0, 0, 7, 0⟩, ⟨0, 0, 7, 0⟩) := by
      norm_num [selectPoints, scanList, List.foldl, scanStep, fillPoints, collapse]
    rw [findNearestTrackpoint, hsel]
    show MatchOutcome.ok (geomResult ⟨0, 0, 7, 0⟩ ⟨0, 0, 7, 0⟩ 10) = _
    rw [geom_pair_same ⟨0, 0, 7, 0⟩ 10 (by norm_num) (by norm_num) (by norm_num)
      (by norm_num)]
  · intro h
    simp only [MatchOutcome.ok.injEq, Trackpoint.mk.injEq] at h
    exact absurd h.2.2.2 (by norm_num)

/-- Witness for claim C4 at a concrete two-point series. -/
theorem claim4_witness :
    ((⟨0, 0, 7, 0⟩ : Trackpoint) ∈ [(⟨0, 0, 7, 0⟩ : Trackpoint), ⟨0, 10, 100, 100⟩]) ∧
    |(⟨0, 0, 7, 0⟩ : Trackpoint).time - 10| < (1000 : ℚ) ∧
    findNearestTrackpoint [⟨0, 0, 7, 0⟩, ⟨0, 10, 100, 100⟩] 10 false 1000
      = .ok ⟨0, 0, 7, 10⟩ := by
  refine ⟨List.mem_cons_self _ _, by norm_num, ?_⟩
  have h := claim4_amended [⟨0, 0, 7, 0⟩, ⟨0, 10, 100, 100⟩] 10 1000 ⟨0, 0, 7, 0⟩
    (by simp [List.sorted_cons]) (List.mem_cons_self _ _) (by norm_num)
    ?_ (by norm_num) (by norm_num) (by norm_num) (by norm_num)
  · exact h
  · intro r hr hne
    rcases List.mem_cons.mp hr with rfl | hr'
    · exact absurd rfl hne
    · rcases List.mem_cons.mp hr' with rfl | hr''
      · left
        norm_num
      · cases hr''

/-- Claim C5 counterexample: for the equatorial pair with longitudes -90 and
90 (arithmetic midpoint 0), the interpolated midpoint has longitude 90, not
the arithmetic midpoint: both points map to the same doubled-angle normal
vector `(-1, 0, 0)`. -/
theorem claim5_counterexample :
    findNearestTrackpoint [⟨0, -90, 0, 0⟩, ⟨0, 90, 0, 100⟩] 50 true 1000
      = .ok ⟨0, 90, 0, 50⟩ ∧ (90 : ℝ) ≠ (-90 + 90) / 2 := by
  refine ⟨?_, by norm_num⟩
  have hsel : selectPoints [⟨0, -90, 0, 0⟩, ⟨0, 90, 0, 100⟩] 50 true 1000
      = some (⟨0, -90, 0, 0⟩, ⟨0, 90, 0, 100⟩) := by
    norm_num [selectPoints, scanList, List.foldl, scanStep, fillPoints]
  rw [findNearestTrackpoint, hsel]
  show MatchOutcome.ok (geomResult ⟨0, -90, 0, 0⟩ ⟨0, 90, 0, 100⟩ 50) = _
  rw [geom_antipodal_lons]

/-- Claim C5, amended: for two trackpoints on the equator whose longitudes
differ by less than 90 degrees and whose mean longitude lies in `(-90, 90]`,
the interpolated match at the exact temporal midpoint has latitude 0,
longitude the arithmetic mean of the longitudes and elevation the arithmetic
mean of the elevations; the spec's concrete scenario (longitudes 0 and 10,
elevations 0 and 100) is an instance. -/
theorem claim5_amended (l0 l1 e0 e1 : ℝ) (t0 t1 thr : ℚ)
    (ht : t0 < t1) (hthr : (t1 - t0) / 2 < thr)
    (hgap : |l0 - l1| < 90) (hmid1 : -90 < (l0 + l1) / 2) (hmid2 : (l0 + l1) / 2 ≤ 90) :
    findNearestTrackpoint [⟨0, l0, e0, t0⟩, ⟨0, l1, e1, t1⟩] ((t0 + t1) / 2) true thr
      = .ok ⟨0, (l0 + l1) / 2, (e0 + e1) / 2, (t0 + t1) / 2⟩ := by
  have ha0 : ¬ ((0 : ℚ) ≤ t0 - (t0 + t1) / 2) := by
    intro hcon
    nlinarith
  have habs0 : |t0 - (t0 + t1) / 2| = (t1 - t0) / 2 := by
    rw [abs_of_neg (by linarith)]
    ring
  have ha1 : (0 : ℚ) ≤ t1 - (t0 + t1) / 2 := by linarith
  have habs1 : |t1 - (t0 + t1) / 2| = (t1 - t0) / 2 := by
    rw [abs_of_nonneg ha1]
    ring
  have h1 : scanStep ((t0 + t1) / 2) ⟨none, thr, none, thr⟩ ⟨0, l0, e0, t0⟩
      = ⟨some ⟨0, l0, e0, t0⟩, |t0 - (t0 + t1) / 2|, none, thr⟩ :=
    scanStep_before ha0
      (by show |t0 - (t0 + t1) / 2| < thr; rw [habs0]; exact hthr)
  have h2 : scanStep ((t0 + t1) / 2)
        ⟨some ⟨0, l0, e0, t0⟩, |t0 - (t0 + t1) / 2|, none, thr⟩ ⟨0, l1, e1, t1⟩
      = ⟨some ⟨0, l0, e0, t0⟩, |t0 - (t0 + t1) / 2|, some ⟨0, l1, e1, t1⟩,
          |t1 - (t0 + t1) / 2|⟩ :=
    scanStep_after ha1
      (by show |t1 - (t0 + t1) / 2| < thr; rw [habs1]; exact hthr)
  have hscan : scanList [⟨0, l0, e0, t0⟩, ⟨0, l1, e1, t1⟩] ((t0 + t1) / 2) thr
      = ⟨some ⟨0, l0, e0, t0⟩, |t0 - (t0 + t1) / 2|, some ⟨0, l1, e1, t1⟩,
          |t1 - (t0 + t1) / 2|⟩ := by
    rw [scanList]
    simp only [List.foldl]
    rw [h1, h2]
  have hsel : selectPoints [⟨0, l0, e0, t0⟩, ⟨0, l1, e1, t1⟩] ((t0 + t1) / 2) true thr
      = some (⟨0, l0, e0, t0⟩, ⟨0, l1, e1, t1⟩) := by
    rw [selectPoints, hscan]
    rfl
  rw [findNearestTrackpoint, hsel]
  show MatchOutcome.ok (geomResult ⟨0, l0, e0, t0⟩ ⟨0, l1, e1, t1⟩ ((t0 + t1) / 2)) = _
  rw [geom_equator_pair l0 l1 e0 e1 t0 t1 ((t0 + t1) / 2) ?deq ?dne hgap hmid1 hmid2]
  case deq =>
    have htR : (t0 : ℝ) < (t1 : ℝ) := by exact_mod_cast ht
    push_cast
    rw [abs_of_nonneg (by linarith), abs_of_nonpos (by linarith)]
    ring
  case dne =>
    have htR : (t0 : ℝ) < (t1 : ℝ) := by exact_mod_cast ht
    push_cast
    rw [abs_ne_zero]
    intro hcon
    linarith

/-- Witness for claim C5: the spec's concrete scenario, lat 0, lon 5, ele 50
at query time 50. -/
theorem claim5_witness :
    (0 : ℚ) < 100 ∧ (100 - 0 : ℚ) / 2 < 1000 ∧ |(0 : ℝ) - 10| < 90 ∧
    findNearestTrackpoint [⟨0, 0, 0, 0⟩, ⟨0, 10, 100, 100⟩] 50 true 1000
      = .ok ⟨0, 5, 50, 50⟩ := by
  refine ⟨by norm_num, by norm_num, by norm_num, ?_⟩
  have h := claim5_amended 0 10 0 100 0 100 1000 (by norm_num) (by norm_num)
    (by norm_num) (by norm_num) (by norm_num)
  norm_num at h
  exact h

/-- Claim C6: `interpolate_n` never divides by zero on a pair of nonnegative
deltas: the weight sum is always nonzero; when at least one delta is zero the
explicit boolean branch gives weight 1 to each zero-delta slot and 0 to the
others; when exactly one delta is zero the result is that slot's value
exactly; otherwise the weights are the reciprocals `1/delta`. -/
theorem claim6_zero_delta_safe (d0 d1 v0 v1 : ℝ) (h0 : 0 ≤ d0) (h1 : 0 ≤ d1) :
    (interpolateWeights [d0, d1]).sum ≠ 0 ∧
    ((d0 = 0 ∨ d1 = 0) → interpolateWeights [d0, d1]
      = [if d0 = 0 then 1 else 0, if d1 = 0 then 1 else 0]) ∧
    (d0 = 0 → d1 ≠ 0 → interpolate_n [d0, d1] [v0, v1] = v0) ∧
    (d1 = 0 → d0 ≠ 0 → interpolate_n [d0, d1] [v0, v1] = v1) ∧
    (d0 ≠ 0 → d1 ≠ 0 → interpolateWeights [d0, d1] = [1 / d0, 1 / d1]) := by
  refine ⟨?_, ?_, ?_, ?_, ?_⟩
  · rw [interpolateWeights_pair]
    by_cases h0' : d0 = 0 <;> by_cases h1' : d1 = 0 <;> simp [h0', h1']
    have hd0 : 0 < d0 := h0.lt_of_ne (Ne.symm h0')
    have hd1 : 0 < d1 := h1.lt_of_ne (Ne.symm h1')
    positivity
  · intro h
    rw [interpolateWeights_pair, if_pos h]
  · intro hz hnz
    rw [interpolate_n_pair]
    simp [hz, hnz]
  · intro hz hnz
    rw [interpolate_n_pair]
    simp [hz, hnz]
  · intro hnz0 hnz1
    rw [interpolateWeights_pair, if_neg (by tauto)]

/-- Witness for claim C6 at deltas 0 and 2, values 5 and 9. -/
theorem claim6_witness :
    (0 : ℝ) ≤ 0 ∧ (0 : ℝ) ≤ 2 ∧ interpolate_n [(0 : ℝ), 2] [5, 9] = 5 :=
  ⟨le_refl 0, by norm_num,
    (claim6_zero_delta_safe 0 2 5 9 (le_refl 0) (by norm_num)).2.2.1 rfl (by norm_num)⟩

/-- Claim C7: in the store-passing model of the matching run, every address
of the input list still maps to its original trackpoint record after the
call (the series is never mutated), and the synthetic result, when produced,
lives at a fresh address that is not in the input list. -/
theorem claim7_frame (addrs : List ℕ) (σ : ℕ → Trackpoint) (q thr : ℚ) (i : Bool) :
    (∀ b ∈ addrs, (findNearestTrackpointStore addrs σ q i thr).2 b = σ b) ∧
    (∀ a : ℕ, (findNearestTrackpointStore addrs σ q i thr).1 = some a → a ∉ addrs) := by
  have hle : ∀ (l : List ℕ) (b : ℕ), b ∈ l → b ≤ l.foldr max 0 := by
    intro l
    induction l with
    | nil => intro b hb; cases hb
    | cons x xs ih =>
      intro b hb
      rcases List.mem_cons.mp hb with rfl | hb'
      · exact le_max_left _ _
      · exact le_trans (ih b hb') (le_max_right _ _)
  have hfr : ∀ b ∈ addrs, b < freshAddr addrs := by
    intro b hb
    rw [freshAddr]
    exact Nat.lt_succ_of_le (hle addrs b hb)
  rcases hh : findNearestTrackpoint (addrs.map σ) q i thr with tp | _
  · constructor
    · intro b hb
      simp only [findNearestTrackpointStore, hh]
      exact Function.update_noteq (Nat.ne_of_lt (hfr b hb)) tp σ
    · intro a ha
      simp only [findNearestTrackpointStore, hh, Option.some.injEq] at ha
      intro hmem
      rw [← ha] at hmem
      exact absurd (hfr _ hmem) (lt_irrefl _)
  · constructor
    · intro b hb
      simp only [findNearestTrackpointStore, hh]
    · intro a ha
      rw [findNearestTrackpointStore] at ha
      simp only [hh] at ha
      exact Option.noConfusion ha

/-- Witness for claim C7 on a one-element store. -/
theorem claim7_witness :
    ((0 : ℕ) ∈ [0]) ∧
    (findNearestTrackpointStore [0] (fun _ => ⟨0, 0, 7, 0⟩) 0 true 100).2 0
      = (fun _ => (⟨0, 0, 7, 0⟩ : Trackpoint)) 0 ∧
    (findNearestTrackpointStore [0] (fun _ => ⟨0, 0, 7, 0⟩) 0 true 100).1 = some 1 ∧
    (1 : ℕ) ∉ [0] := by
  have hmem : (0 : ℕ) ∈ [0] := List.mem_cons_self 0 []
  refine ⟨hmem, (claim7_frame [0] (fun _ => ⟨0, 0, 7, 0⟩) 0 100 true).1 0 hmem,
    store_eval_concrete,
    (claim7_frame [0] (fun _ => ⟨0, 0, 7, 0⟩) 0 100 true).2 1 store_eval_concrete⟩

/-- Claim C8: `decToDMS (10.5) = (10, 30, 0.0)`,
`formatAsRational 10.463 = "10463/1000"`, `formatAsRational 0 = "0/1"`, and
for nonnegative inputs each `decToDMS` step truncates (floor on nonnegative
values), never rounds. -/
theorem claim8_dms_rational :
    decToDMS (21/2) = (10, 30, 0) ∧
    formatAsRational (10463/1000) = some "10463/1000" ∧
    formatAsRational 0 = some "0/1" ∧
    (∀ x : ℚ, 0 ≤ x →
      (decToDMS x).1 = ⌊x⌋ ∧ (decToDMS x).2.1 = ⌊(x - ⌊x⌋) * 60⌋ ∧
      (decToDMS x).2.2 = ((x - ⌊x⌋) * 60 - ⌊(x - ⌊x⌋) * 60⌋) * 60) := by
  refine ⟨?_, ?_, ?_, ?_⟩
  · have h1 : pytrunc (21/2 : ℚ) = 10 := by
      rw [pytrunc_eq_floor (by norm_num)]
      norm_num
    simp only [decToDMS, h1]
    have h2 : ((21:ℚ)/2 - ((10:ℤ) : ℚ)) * 60 = 30 := by norm_num
    rw [h2]
    have h3 : pytrunc (30 : ℚ) = 30 := by
      rw [pytrunc_eq_floor (by norm_num)]
      norm_num
    rw [h3]
    norm_num
  · have h0 : ((10463:ℚ)/1000) ≠ 0 := by norm_num
    have h2 : (0:ℚ) ≤ 10463/1000 := by norm_num
    have h3 : round ((10463/1000 : ℚ) * 1000000) = 10463000 := by
      rw [round_eq]
      norm_num
    rw [formatAsRational, if_neg h0, fixed6, if_pos h2, h3]
    decide
  · rw [formatAsRational, if_pos rfl]
  · intro x hx
    have h1 : pytrunc x = ⌊x⌋ := pytrunc_eq_floor hx
    have hw2 : (0 : ℚ) ≤ (x - ⌊x⌋) * 60 := by
      have hfl : (⌊x⌋ : ℚ) ≤ x := Int.floor_le x
      nlinarith
    have h2 : pytrunc ((x - ⌊x⌋) * 60) = ⌊(x - ⌊x⌋) * 60⌋ := pytrunc_eq_floor hw2
    refine ⟨?_, ?_, ?_⟩
    · simp only [decToDMS, h1]
    · simp only [decToDMS, h1, h2]
    · simp only [decToDMS, h1, h2]

/-- Witness for claim C8 at `x = 10.5`. -/
theorem claim8_witness :
    (0 : ℚ) ≤ 21/2 ∧ (decToDMS (21/2)).1 = ⌊(21/2 : ℚ)⌋ := by
  exact ⟨by norm_num, (claim8_dms_rational.2.2.2 (21/2) (by norm_num)).1⟩

/-- Claim C9: the round trip `dmsToDec (decToDMS x)` is exactly the identity
in the rational model for every nonnegative `x` (the Python floats agree up
to floating tolerance). -/
theorem claim9_roundtrip (x : ℚ) (_hx : 0 ≤ x) :
    dmsToDec (decToDMS x).1 (decToDMS x).2.1 (decToDMS x).2.2 = x := by
  simp only [decToDMS, dmsToDec]
  ring

/-- Witness for claim C9 at `x = 10.5`. -/
theorem claim9_witness :
    (0 : ℚ) ≤ 21/2 ∧
    dmsToDec (decToDMS (21/2)).1 (decToDMS (21/2)).2.1 (decToDMS (21/2)).2.2 = 21/2 :=
  ⟨by norm_num, claim9_roundtrip (21/2) (by norm_num)⟩

/-- Claim C10: whenever `findNearestTrackpoint` returns a trackpoint, its
`time` field is the query time (line 127 `ret.time = time`), never the
timestamp of a matched source trackpoint. -/
theorem claim10_time_is_query (L : List Trackpoint) (q : ℚ) (i : Bool) (thr : ℚ)
    (tp : Trackpoint) (h : findNearestTrackpoint L q i thr = .ok tp) :
    tp.time = q := by
  rw [findNearestTrackpoint] at h
  cases hsel : selectPoints L q i thr with
  | none =>
    rw [hsel] at h
    exact absurd h (by simp)
  | some pq =>
    obtain ⟨p0, p1⟩ := pq
    rw [hsel] at h
    have h2 : MatchOutcome.ok (geomResult p0 p1 q) = MatchOutcome.ok tp := h
    have h3 : geomResult p0 p1 q = tp := MatchOutcome.ok.inj h2
    rw [← h3]
    rfl

/-- Witness for claim C10: an exact hit at query time 0. -/
theorem claim10_witness :
    findNearestTrackpoint [⟨0, 0, 7, 0⟩] 0 true 100 = .ok ⟨0, 0, 7, 0⟩ ∧
    (⟨0, 0, 7, 0⟩ : Trackpoint).time = 0 :=
  ⟨exact_hit_eval, claim10_time_is_query _ _ _ _ _ exact_hit_eval⟩

end Geotag